import Mathlib

/-!
Verification of the glucose-pk repository's two core engines:
the castle value-driven state machine / particle simulation
(`CastleGame` in the source) and the chart series buffer manager /
reading aligner (`GlucoseChart` in the source).

JavaScript numbers are embedded as exact rationals (`ℚ`); integer
timestamps (milliseconds from `Date.getTime()`) as `ℤ`.
-/

namespace GlucosePK

/-! ## Castle game state machine (`CastleGame`) -/

/-- Particle kinds used by `addParticle` / `updateParticles`. -/
inductive PType
  | build
  | attack
  | fire
  | levelup
  | tired
deriving DecidableEq, Repr

/-- The deterministic fields of `CastleGame.state` (the `particles`
array is modelled separately as a `List Particle`). -/
structure GameState where
  health : ℚ
  level : ℤ
  buildProgress : ℚ
  isUnderAttack : Bool
  attackIntensity : ℚ
  lastGlucose : ℚ
deriving DecidableEq, Repr

/-- The state installed by the constructor and by `reset()`. -/
def resetState : GameState :=
  { health := 100, level := 1, buildProgress := 0,
    isUnderAttack := false, attackIntensity := 0, lastGlucose := 5.6 }

/-- `CastleGame.updateWithGlucose`, translated from the source if-chain.
The returned `Bool` records whether the deterministic
`addParticle('levelup')` call fired (the stochastic,
`Math.random()`-gated particle spawns do not touch the deterministic
fields and are not modelled here). -/
def updateWithGlucose (s : GameState) (v : ℚ) : GameState × Bool :=
  let s0 := { s with lastGlucose := v }
  let s1 :=
    if v < 3.9 then
      { s0 with isUnderAttack := false, attackIntensity := 0,
                buildProgress := s0.buildProgress + 0.2,
                health := max 0 (s0.health - 0.1) }
    else if v ≤ 7.8 then
      { s0 with isUnderAttack := false, attackIntensity := 0,
                buildProgress := s0.buildProgress + 1,
                health := min 100 (s0.health + 0.3) }
    else if v ≤ 10.0 then
      { s0 with isUnderAttack := true, attackIntensity := 0.3,
                health := max 0 (s0.health - 0.3) }
    else if v ≤ 11.1 then
      { s0 with isUnderAttack := true, attackIntensity := 0.6,
                health := max 0 (s0.health - 0.6) }
    else
      { s0 with isUnderAttack := true, attackIntensity := 1,
                health := max 0 (s0.health - 1) }
  if s1.buildProgress ≥ 100 then
    if s1.level < 5 then
      ({ s1 with buildProgress := 0, level := s1.level + 1 }, true)
    else
      ({ s1 with buildProgress := 0 }, false)
  else (s1, false)

/-- The spec's five threshold tiers. -/
inductive Tier
  | scarcity
  | growth
  | mild
  | moderate
  | severe
deriving DecidableEq, Repr

/-- Modelled from the spec: the tier containing a glucose value,
per the five ranges `< 3.9`, `[3.9, 7.8]`, `(7.8, 10.0]`,
`(10.0, 11.1]`, `> 11.1`. -/
def tierOf (v : ℚ) : Tier :=
  if v < 3.9 then .scarcity
  else if v ≤ 7.8 then .growth
  else if v ≤ 10.0 then .mild
  else if v ≤ 11.1 then .moderate
  else .severe

/-- Modelled from the spec: the per-tier deterministic update table. -/
def specTierApply (t : Tier) (s : GameState) : GameState :=
  match t with
  | .scarcity =>
      { s with isUnderAttack := false, attackIntensity := 0,
               buildProgress := s.buildProgress + 0.2,
               health := max 0 (s.health - 0.1) }
  | .growth =>
      { s with isUnderAttack := false, attackIntensity := 0,
               buildProgress := s.buildProgress + 1,
               health := min 100 (s.health + 0.3) }
  | .mild =>
      { s with isUnderAttack := true, attackIntensity := 0.3,
               health := max 0 (s.health - 0.3) }
  | .moderate =>
      { s with isUnderAttack := true, attackIntensity := 0.6,
               health := max 0 (s.health - 0.6) }
  | .severe =>
      { s with isUnderAttack := true, attackIntensity := 1,
               health := max 0 (s.health - 1) }

/-- The level-up check at the tail of `updateWithGlucose`, per the
spec's level-up rule; the `Bool` is the `levelup` event. -/
def levelUpCheck (s : GameState) : GameState × Bool :=
  if s.buildProgress ≥ 100 then
    if s.level < 5 then
      ({ s with buildProgress := 0, level := s.level + 1 }, true)
    else
      ({ s with buildProgress := 0 }, false)
  else (s, false)

/-- Repeated application of `updateWithGlucose` (ticks in sequence). -/
def runGame (s : GameState) (vs : List ℚ) : GameState :=
  vs.foldl (fun a v => (updateWithGlucose a v).1) s

/-! ## Particle simulation (`CastleGame.updateParticles`) -/

/-- A particle as built by `addParticle` (positions and velocities are
random at spawn time, so they are arbitrary rationals here). -/
structure Particle where
  type : PType
  x : ℚ
  y : ℚ
  vx : ℚ
  vy : ℚ
  life : ℚ
  maxLife : ℚ
deriving DecidableEq, Repr

/-- `CastleGame.updateParticles`, translated from the source: one pass
over the particle list that mutates each particle and keeps it exactly
when its remaining life is positive. -/
def updateParticles : List Particle → List Particle
  | [] => []
  | p :: ps =>
    let q : Particle :=
      { p with x := p.x + p.vx, y := p.y + p.vy,
               life := p.life - 1 / p.maxLife,
               vy := if p.type = PType.attack then p.vy + 0.1 else p.vy }
    if 0 < q.life then q :: updateParticles ps else updateParticles ps

/-- Modelled from the claim: per frame a particle's position advances
by its velocity, its life fraction drops by `1 / maxLifetime`, and
attack-kind particles receive a constant downward velocity increment. -/
def specParticleStep (p : Particle) : Particle :=
  { p with x := p.x + p.vx, y := p.y + p.vy,
           vy := if p.type = PType.attack then p.vy + 0.1 else p.vy,
           life := p.life - 1 / p.maxLife }

/-! ## Chart: reading alignment and series buffers (`GlucoseChart`) -/

/-- One raw reading as delivered by `/api/pk/history`: a timestamp in
milliseconds (`new Date(reading.datetime).getTime()`) and a value. -/
structure Reading where
  datetimeMs : ℤ
  value : ℚ
deriving DecidableEq, Repr

/-- One per-player entry of the history response (`player.data` may be
absent, which the source's `player.success && player.data` guard
treats like a failure). -/
structure PlayerResp where
  user_id : String
  success : Bool
  data : Option (List Reading)
deriving DecidableEq, Repr

/-- The history response (`result.success && result.players`). -/
structure ApiResult where
  success : Bool
  players : Option (List PlayerResp)
deriving DecidableEq, Repr

/-- One entry of `GlucoseChart.TIME_RANGES` (the display label is
presentation-only and omitted). -/
structure TimeRangePreset where
  hours : ℕ
  points : ℕ
deriving DecidableEq, Repr

/-- The static `TIME_RANGES` preset table, keyed by range key. -/
def TIME_RANGES : String → Option TimeRangePreset
  | "3h" => some ⟨3, 36⟩
  | "6h" => some ⟨6, 72⟩
  | "12h" => some ⟨12, 144⟩
  | "24h" => some ⟨24, 288⟩
  | _ => none

/-- `GlucoseChart.alignToInterval` on the underlying milliseconds:
`Math.floor(ms / intervalMs) * intervalMs` with
`intervalMs = intervalMinutes * 60 * 1000`. `Math.floor` of the real
quotient of integers is floor division, `Int.fdiv`. -/
def alignToInterval (ms : ℤ) (intervalMinutes : ℤ) : ℤ :=
  Int.fdiv ms (intervalMinutes * 60 * 1000) * (intervalMinutes * 60 * 1000)

/-- The 5-minute canonical bucket of a reading, as computed inside
`loadHistoryFromAPI`. -/
def bucketOf (r : Reading) : ℤ := alignToInterval r.datetimeMs 5

/-- The per-player bucket map of `loadHistoryFromAPI`: the source
reverses the newest-first list and assigns
`playerDataMap[uid][timestamp] = reading.value` in that order, so a
later assignment overwrites an earlier one. -/
def playerMap (d : List Reading) : ℤ → Option ℚ :=
  d.reverse.foldl
    (fun pm r => fun t => if t = bucketOf r then some r.value else pm t)
    (fun _ => none)

/-- The full `playerDataMap`: one bucket map per successful player
entry; a repeated `user_id` rebuilds that player's map from scratch,
as the source's `playerDataMap[player.user_id] = {}` does. -/
def buildPdm (prs : List PlayerResp) : String → ℤ → Option ℚ :=
  prs.foldl
    (fun acc pr =>
      if pr.success then
        match pr.data with
        | some d => fun uid => if uid = pr.user_id then playerMap d else acc uid
        | none => acc
      else acc)
    (fun _ _ => none)

/-- All aligned timestamps contributed to the `allTimestamps` set, in
insertion order and with repetitions (the set semantics is recovered
by `dedup` below). -/
def collectTs (prs : List PlayerResp) : List ℤ :=
  prs.foldl
    (fun acc pr =>
      if pr.success then
        match pr.data with
        | some d => acc ++ d.reverse.map bucketOf
        | none => acc
      else acc)
    []

/-- `Array.from(allTimestamps).sort((a, b) => a - b)`: the distinct
aligned timestamps in ascending order. -/
def sortedTimestamps (prs : List PlayerResp) : List ℤ :=
  List.insertionSort (fun a b => a ≤ b) (collectTs prs).dedup

/-- The chart state owned by the Series Buffer Manager: the shared
label sequence (kept as the raw timestamps that the source formats
into display strings), one `chart.data.datasets[i].data` row and one
`historyData[player.id]` row per player, the active range key and
point budget, and the `isLoading` flag. -/
structure ChartState where
  labels : List ℤ
  datasets : List (List (Option ℚ))
  history : List (List ℚ)
  currentTimeRange : String
  maxPoints : ℕ
  isLoading : Bool
deriving DecidableEq, Repr

/-- Push one entry and evict the oldest when the buffer exceeds the
point budget (`push` then conditional `shift`). -/
def pushShift {α : Type} (row : List α) (x : α) (budget : ℕ) : List α :=
  let r := row ++ [x]
  if r.length > budget then r.tail else r

/-- `GlucoseChart.addDataPoint`: appends the current time label, then
for every player whose value is present appends to its history and
dataset rows, each with one-step eviction. -/
def addDataPoint (players : List String) (s : ChartState)
    (vals : String → Option ℚ) (now : ℤ) : ChartState :=
  { s with
    labels := pushShift s.labels now s.maxPoints,
    history := List.zipWith
      (fun pid row => match vals pid with
        | some v => pushShift row v s.maxPoints
        | none => row) players s.history,
    datasets := List.zipWith
      (fun pid row => match vals pid with
        | some v => pushShift row (some v) s.maxPoints
        | none => row) players s.datasets }

/-- The body of `loadHistoryFromAPI` once the response has arrived:
on success it rebuilds labels and all rows wholesale from the aligned
matrix; otherwise it keeps the prior buffers; it always clears
`isLoading`. -/
def loadApply (players : List String) (s : ChartState) (resp : ApiResult) :
    ChartState :=
  match resp.players with
  | some prs =>
    if resp.success then
      let pdm := buildPdm prs
      let sorted := sortedTimestamps prs
      { s with
        labels := sorted,
        datasets := players.map (fun pid => sorted.map (fun ts => pdm pid ts)),
        history := players.map
          (fun pid => (sorted.map (fun ts => pdm pid ts)).reduceOption),
        isLoading := false }
    else { s with isLoading := false }
  | none => { s with isLoading := false }

/-- The synchronous prefix of `GlucoseChart.setTimeRange`: the
`isLoading` guard, the preset-table validation (with its warning), and
the range/budget switch; `willLoad` records whether the tail call to
`loadHistoryFromAPI` is reached. -/
structure SetRangeResult where
  state : ChartState
  warned : Bool
  willLoad : Bool
deriving DecidableEq, Repr

/-- `setTimeRange` up to (but not including) the awaited reload. -/
def setTimeRangeSync (s : ChartState) (key : String) : SetRangeResult :=
  if s.isLoading then ⟨s, false, false⟩
  else
    match TIME_RANGES key with
    | none => ⟨s, true, false⟩
    | some r => ⟨{ s with currentTimeRange := key, maxPoints := r.points },
        false, true⟩

/-- Buffer-budget invariant of a chart state: the label sequence and
every per-player row stay within the active point budget. -/
def Bounded (s : ChartState) : Prop :=
  s.labels.length ≤ s.maxPoints ∧
  (∀ row ∈ s.datasets, row.length ≤ s.maxPoints) ∧
  (∀ row ∈ s.history, row.length ≤ s.maxPoints)

/-- The asynchronous manager state: the chart plus the number of bulk
fetches issued and not yet resolved. -/
structure MState where
  chart : ChartState
  inFlight : ℕ
deriving DecidableEq, Repr

/-- Scheduler events: a `setTimeRange` call, a periodic history
refresh (both may issue a bulk fetch), and the arrival of a fetch
response. -/
inductive MEv
  | setRange (key : String)
  | refresh
  | resolve (resp : ApiResult)
deriving DecidableEq, Repr

/-- The entry guard of `loadHistoryFromAPI`: refuse to issue a fetch
while one is in flight, otherwise mark loading and issue it. -/
def loadStart (m : MState) : MState :=
  if m.chart.isLoading then m
  else ⟨{ m.chart with isLoading := true }, m.inFlight + 1⟩

/-- One scheduler step. -/
def stepM (players : List String) (m : MState) (e : MEv) : MState :=
  match e with
  | .setRange key =>
    let r := setTimeRangeSync m.chart key
    if r.willLoad then loadStart ⟨r.state, m.inFlight⟩ else ⟨r.state, m.inFlight⟩
  | .refresh => loadStart m
  | .resolve resp =>
    if 0 < m.inFlight then ⟨loadApply players m.chart resp, m.inFlight - 1⟩
    else m

/-- The constructor state of the chart (empty buffers, default range). -/
def initChartFor (players : List String) : ChartState :=
  ⟨[], players.map (fun _ => []), players.map (fun _ => []), "3h", 36, false⟩

/-- Initial manager state: no fetch in flight. -/
def initM (players : List String) : MState := ⟨initChartFor players, 0⟩

/-- Run a sequence of scheduler events. -/
def runM (players : List String) (m : MState) (evs : List MEv) : MState :=
  evs.foldl (stepM players) m

/-- The concurrency invariant: at most one fetch in flight, and the
`isLoading` flag tracks it exactly. -/
def Inv (m : MState) : Prop :=
  m.inFlight ≤ 1 ∧ (m.chart.isLoading = true ↔ m.inFlight = 1)

/-- A bulk response whose per-player reading counts (36 and 1) both
respect the requested `max_count` of the 3h preset, yet whose aligned
buckets are pairwise distinct across the two players. -/
def bigResp : ApiResult :=
  ⟨true, some [
    ⟨"A", true, some ((List.range 36).map (fun i => ⟨(i : ℤ) * 300000, 5⟩))⟩,
    ⟨"B", true, some [⟨36 * 300000, 6⟩]⟩]⟩

/-- A fresh two-player chart on the 3h preset (budget 36). -/
def initChartAB : ChartState := ⟨[], [[], []], [[], []], "3h", 36, false⟩

/-! ## Helper lemmas -/

/-- Shared decomposition lemma: `updateWithGlucose` is the spec's tier
table followed by the level-up check. -/
lemma update_decomp (s : GameState) (v : ℚ) :
    updateWithGlucose s v =
      levelUpCheck (specTierApply (tierOf v) { s with lastGlucose := v }) := by
  simp only [updateWithGlucose, specTierApply, tierOf, levelUpCheck]
  split_ifs <;> rfl

/-- The tier table never touches `level`. -/
lemma specTierApply_level (t : Tier) (s : GameState) :
    (specTierApply t s).level = s.level := by
  cases t <;> rfl

/-- One tick leaves the level unchanged or increments it by one, the
latter only when the level was below 5. -/
lemma update_level_cases (s : GameState) (v : ℚ) :
    (updateWithGlucose s v).1.level = s.level ∨
    ((updateWithGlucose s v).1.level = s.level + 1 ∧ s.level < 5) := by
  simp only [updateWithGlucose]
  split_ifs <;> simp_all

/-- The reversed last-write-wins pass of `loadHistoryFromAPI` keeps,
for each bucket, the first reading of the original (newest-first)
list that falls into it. -/
lemma playerMap_first_match (d : List Reading) (t : ℤ) :
    playerMap d t = (d.find? (fun r => decide (bucketOf r = t))).map Reading.value := by
  induction d with
  | nil => rfl
  | cons r d ih =>
    have hstep : playerMap (r :: d) t
        = if t = bucketOf r then some r.value else playerMap d t := by
      unfold playerMap
      rw [List.reverse_cons, List.foldl_append]
      rfl
    rw [hstep, List.find?_cons]
    by_cases h : bucketOf r = t
    · simp [h]
    · have h' : ¬ t = bucketOf r := fun he => h he.symm
      simp [h, h', ih]

/-- One-step eviction keeps a row within the budget. -/
lemma pushShift_length {α : Type} (row : List α) (x : α) (b : ℕ)
    (h : row.length ≤ b) : (pushShift row x b).length ≤ b := by
  have hlen : (row ++ [x]).length = row.length + 1 := by simp
  simp only [pushShift]
  split_ifs with hl
  · rw [List.length_tail, hlen]
    omega
  · rw [hlen] at hl ⊢
    omega

/-- Rows produced by the per-player `zipWith` update stay within the
budget when the update does. -/
lemma zipWith_rows_bound {α : Type} {b : ℕ} (f : String → List α → List α)
    (hf : ∀ pid row, row.length ≤ b → (f pid row).length ≤ b) :
    ∀ (ps : List String) (rows : List (List α)),
    (∀ row ∈ rows, row.length ≤ b) →
    ∀ row ∈ List.zipWith f ps rows, row.length ≤ b := by
  intro ps
  induction ps with
  | nil =>
    intro rows _ row hm
    simp at hm
  | cons p ps ih =>
    intro rows hrows row hm
    cases rows with
    | nil => simp at hm
    | cons r rs =>
      simp only [List.zipWith_cons_cons, List.mem_cons] at hm
      rcases hm with rfl | hm
      · exact hf _ _ (hrows _ (List.mem_cons_self _ _))
      · exact ih rs (fun row h => hrows row (List.mem_cons_of_mem _ h)) row hm

/-- `setTimeRange` never touches the `isLoading` flag before the
reload, and it only reaches the reload when no load is in flight. -/
lemma setTimeRangeSync_isLoading (s : ChartState) (key : String) :
    (setTimeRangeSync s key).state.isLoading = s.isLoading ∧
    ((setTimeRangeSync s key).willLoad = true → s.isLoading = false) := by
  unfold setTimeRangeSync
  split_ifs with h
  · simp [h]
  · cases TIME_RANGES key <;> simp_all

/-- Applying a response always clears `isLoading`. -/
lemma loadApply_isLoading (players : List String) (s : ChartState)
    (resp : ApiResult) : (loadApply players s resp).isLoading = false := by
  unfold loadApply
  cases resp.players
  · rfl
  · simp only []
    split_ifs
    · rfl
    · rfl

/-- Every scheduler step preserves the concurrency invariant. -/
lemma stepM_inv (players : List String) (m : MState) (e : MEv)
    (h : Inv m) : Inv (stepM players m e) := by
  obtain ⟨h1, h2⟩ := h
  cases e with
  | setRange key =>
    obtain ⟨hkeep, hload⟩ := setTimeRangeSync_isLoading m.chart key
    simp only [stepM]
    split_ifs with hw
    · have hfalse : m.chart.isLoading = false := hload hw
      have hz : m.inFlight = 0 := by
        rcases Nat.lt_or_ge m.inFlight 1 with h | h
        · omega
        · exact absurd (h2.mpr (by omega)) (by simp [hfalse])
      unfold loadStart
      rw [hkeep, hfalse]
      simp [Inv, hz]
    · exact ⟨h1, by rw [hkeep]; exact h2⟩
  | refresh =>
    simp only [stepM, loadStart]
    split_ifs with hld
    · exact ⟨h1, h2⟩
    · have hf : m.chart.isLoading = false := by
        cases hb : m.chart.isLoading
        · rfl
        · exact absurd hb hld
      have hz : m.inFlight = 0 := by
        rcases Nat.lt_or_ge m.inFlight 1 with h | h
        · omega
        · exact absurd (h2.mpr (by omega)) (by simp [hf])
      simp [Inv, hz]
  | resolve resp =>
    simp only [stepM]
    split_ifs with hp
    · constructor
      · show m.inFlight - 1 ≤ 1
        omega
      · show (loadApply players m.chart resp).isLoading = true ↔ m.inFlight - 1 = 1
        rw [loadApply_isLoading]
        exact ⟨fun hc => absurd hc Bool.false_ne_true,
          fun hc => absurd hc (by omega)⟩
    · exact ⟨h1, h2⟩

/-! ## Claim theorems -/

/-- C1: one `updateWithGlucose(v)` call applies exactly the
deterministic update of the tier containing `v` (the spec's table),
followed by the level-up check; in particular value 3.5 on
`{health 100, buildProgress 0, level 1}` yields
`{health 99.9, buildProgress 0.2, level 1}` with `attackIntensity 0`,
and value 12.0 on health 50 yields health 49 with `attackIntensity 1`. -/
theorem updateWithGlucose_tier_correct :
    (∀ s v, updateWithGlucose s v =
      levelUpCheck (specTierApply (tierOf v) { s with lastGlucose := v })) ∧
    updateWithGlucose resetState 3.5 =
      ({ health := 99.9, level := 1, buildProgress := 0.2,
         isUnderAttack := false, attackIntensity := 0,
         lastGlucose := 3.5 }, false) ∧
    (updateWithGlucose { resetState with health := 50 } 12.0).1.health = 49 ∧
    (updateWithGlucose { resetState with health := 50 } 12.0).1.attackIntensity = 1 := by
  refine ⟨update_decomp, ?_, ?_, ?_⟩
  · norm_num [updateWithGlucose, resetState, max_def, min_def,
      Prod.ext_iff, GameState.mk.injEq]
  · norm_num [updateWithGlucose, resetState, max_def, min_def]
  · norm_num [updateWithGlucose, resetState, max_def, min_def]

/-- C2: if `buildProgress` is at least 100 after the tier update inside
`updateWithGlucose`, the returned state has `buildProgress` reset to 0,
and `level` is incremented by exactly 1 (with the `levelup` event
emitted) when the previous level is below 5, while it stays 5 when it
is already 5; if `buildProgress` stays below 100 the level is
unchanged. -/
theorem levelUp_rule :
    ∀ (s : GameState) (v : ℚ),
    ((specTierApply (tierOf v) { s with lastGlucose := v }).buildProgress ≥ 100 →
      (updateWithGlucose s v).1.buildProgress = 0 ∧
      (s.level < 5 → (updateWithGlucose s v).1.level = s.level + 1 ∧
        (updateWithGlucose s v).2 = true) ∧
      (s.level = 5 → (updateWithGlucose s v).1.level = 5 ∧
        (updateWithGlucose s v).2 = false)) ∧
    ((specTierApply (tierOf v) { s with lastGlucose := v }).buildProgress < 100 →
      (updateWithGlucose s v).1.level = s.level ∧
      (updateWithGlucose s v).1.buildProgress =
        (specTierApply (tierOf v) { s with lastGlucose := v }).buildProgress) := by
  intro s v
  have hl : (specTierApply (tierOf v) { s with lastGlucose := v }).level = s.level :=
    specTierApply_level _ _
  rw [update_decomp]
  set u := specTierApply (tierOf v) { s with lastGlucose := v } with hu
  unfold levelUpCheck
  split_ifs with h1 h2
  · refine ⟨fun _ => ⟨rfl, fun _ => ⟨?_, rfl⟩, fun h5 => absurd h5 (by omega)⟩,
      fun hbp => absurd hbp (not_lt.mpr h1)⟩
    show u.level + 1 = s.level + 1
    omega
  · refine ⟨fun _ => ⟨rfl, fun hlt => absurd hlt (by omega),
      fun h5 => ⟨?_, rfl⟩⟩, fun hbp => absurd hbp (not_lt.mpr h1)⟩
    show u.level = 5
    omega
  · exact ⟨fun hbp => absurd hbp h1, fun _ => ⟨hl, rfl⟩⟩

/-- C2 witness: tick value 6.0 (growth) from buildProgress 99.5 and
level 1 resets buildProgress, reaches level 2 and emits the event. -/
theorem levelUp_rule_witness :
    (updateWithGlucose { resetState with buildProgress := 99.5 } 6.0).1.buildProgress = 0 ∧
    (updateWithGlucose { resetState with buildProgress := 99.5 } 6.0).1.level = 2 ∧
    (updateWithGlucose { resetState with buildProgress := 99.5 } 6.0).2 = true := by
  have h := (levelUp_rule { resetState with buildProgress := 99.5 } 6.0).1
    (by norm_num [specTierApply, tierOf, resetState])
  have h2 := h.2.1 (by norm_num [resetState])
  refine ⟨h.1, ?_, h2.2⟩
  rw [h2.1]
  norm_num [resetState]

/-- C3: starting from any state inside the data model's invariant
ranges (health in `[0,100]`, buildProgress in `[0,100)`), the state
returned by one `updateWithGlucose` tick again has health in `[0,100]`
and buildProgress in `[0,100)`, in every tier. -/
theorem health_progress_invariant :
    ∀ (s : GameState) (v : ℚ),
    0 ≤ s.health → s.health ≤ 100 →
    0 ≤ s.buildProgress → s.buildProgress < 100 →
    0 ≤ (updateWithGlucose s v).1.health ∧
    (updateWithGlucose s v).1.health ≤ 100 ∧
    0 ≤ (updateWithGlucose s v).1.buildProgress ∧
    (updateWithGlucose s v).1.buildProgress < 100 := by
  intro s v hh0 hh1 hb0 hb1
  simp only [updateWithGlucose]
  split_ifs <;>
    refine ⟨?_, ?_, ?_, ?_⟩ <;>
    simp only [] <;>
    first
      | exact le_max_left _ _
      | exact max_le (by norm_num) (by linarith)
      | exact le_min (by norm_num) (by linarith)
      | exact min_le_left _ _
      | linarith

/-- One witness state for C3, at the upper boundary `health = 100`. -/
theorem health_progress_invariant_witness :
    0 ≤ (updateWithGlucose resetState 3.5).1.health ∧
    (updateWithGlucose resetState 3.5).1.health ≤ 100 ∧
    0 ≤ (updateWithGlucose resetState 3.5).1.buildProgress ∧
    (updateWithGlucose resetState 3.5).1.buildProgress < 100 :=
  health_progress_invariant resetState 3.5 (by norm_num [resetState])
    (by norm_num [resetState]) (by norm_num [resetState])
    (by norm_num [resetState])

/-- C10: across any sequence of `updateWithGlucose` calls the level is
non-decreasing, increases by at most 1 per call, and never exceeds 5
from any state already at level at most 5 (hence from the initial
state, whose level is 1); `reset()` returns the level to 1. -/
theorem level_monotone_bounded :
    (∀ (s : GameState) (v : ℚ),
      s.level ≤ (updateWithGlucose s v).1.level ∧
      (updateWithGlucose s v).1.level ≤ s.level + 1 ∧
      (s.level ≤ 5 → (updateWithGlucose s v).1.level ≤ 5)) ∧
    (∀ (s : GameState) (vs : List ℚ),
      s.level ≤ 5 → (runGame s vs).level ≤ 5) ∧
    resetState.level = 1 := by
  refine ⟨?_, ?_, rfl⟩
  · intro s v
    rcases update_level_cases s v with h | ⟨h, hlt⟩ <;> rw [h] <;> omega
  · intro s vs
    induction vs generalizing s with
    | nil => exact fun h => h
    | cons v vs ih =>
      intro h
      refine ih _ ?_
      rcases update_level_cases s v with h1 | ⟨h1, hlt⟩ <;> rw [h1] <;> omega

/-- C10 witness: from a level-5 state, one tick keeps the level at
most 5, and a run of ticks from the reset state stays at most 5. -/
theorem level_monotone_bounded_witness :
    ({ resetState with level := 5 } : GameState).level ≤
        (updateWithGlucose { resetState with level := 5 } 6.0).1.level ∧
    (runGame resetState [6.0, 12.0, 3.5]).level ≤ 5 :=
  ⟨(level_monotone_bounded.1 { resetState with level := 5 } 6.0).1,
   level_monotone_bounded.2.1 resetState [6.0, 12.0, 3.5]
     (by norm_num [resetState])⟩

/-- C9: one frame of `updateParticles` applies the claimed step to
every particle and removes exactly those whose life fraction became
non-positive, so every surviving particle has positive life. -/
theorem updateParticles_frame :
    (∀ ps, updateParticles ps =
      (ps.map specParticleStep).filter (fun q => decide (0 < q.life))) ∧
    (∀ ps q, q ∈ updateParticles ps → 0 < q.life) := by
  have h1 : ∀ ps, updateParticles ps =
      (ps.map specParticleStep).filter (fun q => decide (0 < q.life)) := by
    intro ps
    induction ps with
    | nil => rfl
    | cons p ps ih =>
      simp only [updateParticles, List.map_cons, List.filter_cons, specParticleStep,
        decide_eq_true_eq]
      split_ifs <;> simp [ih]
  refine ⟨h1, fun ps q hq => ?_⟩
  rw [h1] at hq
  simp only [List.mem_filter, decide_eq_true_eq] at hq
  exact hq.2

/-- C9 witness: an attack particle with half its life left survives the
frame with positive life. -/
theorem updateParticles_frame_witness :
    0 < (Particle.mk PType.attack 1 2 1 2.1 (1/2) 2).life :=
  updateParticles_frame.2 [Particle.mk PType.attack 0 0 1 2 1 2] _
    (by norm_num [updateParticles, Particle.mk.injEq])

/-- C7: the canonical bucket is the timestamp floored to the bucket
interval, so for every positive interval a timestamp exactly on a
bucket boundary aligns to itself and a timestamp one interval minus
1 ms after a boundary aligns to that prior boundary. -/
theorem alignToInterval_boundary :
    ∀ (m k : ℤ), 0 < m →
    alignToInterval (k * (m * 60 * 1000)) m = k * (m * 60 * 1000) ∧
    alignToInterval (k * (m * 60 * 1000) + (m * 60 * 1000) - 1) m
      = k * (m * 60 * 1000) := by
  intro m k hm
  have hpos : 0 < m * 60 * 1000 := by positivity
  have hne : m * 60 * 1000 ≠ 0 := ne_of_gt hpos
  unfold alignToInterval
  constructor
  · rw [Int.mul_fdiv_cancel _ hne]
  · rw [Int.fdiv_eq_ediv _ (le_of_lt hpos)]
    have h : k * (m * 60 * 1000) + (m * 60 * 1000) - 1
        = (m * 60 * 1000 - 1) + k * (m * 60 * 1000) := by ring
    rw [h, Int.add_mul_ediv_right _ _ hne,
      Int.ediv_eq_zero_of_lt (by omega) (by omega)]
    ring

/-- C7 witness at a 5-minute interval: bucket boundary 2100000 ms and
the last millisecond before the next boundary. -/
theorem alignToInterval_boundary_witness :
    alignToInterval (7 * (5 * 60 * 1000)) 5 = 7 * (5 * 60 * 1000) ∧
    alignToInterval (7 * (5 * 60 * 1000) + (5 * 60 * 1000) - 1) 5
      = 7 * (5 * 60 * 1000) :=
  alignToInterval_boundary 5 7 (by norm_num)

/-- C8 (amended): for a key outside the preset table, `setTimeRange`
leaves the state unchanged and issues no reload, and it emits the
warning exactly when no bulk load is in flight (an in-flight load makes
the call return silently before the validation). -/
theorem setTimeRange_unknown_noop :
    ∀ (s : ChartState) (key : String), TIME_RANGES key = none →
    setTimeRangeSync s key = ⟨s, !s.isLoading, false⟩ := by
  intro s key hk
  unfold setTimeRangeSync
  rw [hk]
  split_ifs with h <;> simp [h]

/-- C8 counterexample: with a load in flight, an unknown key produces
no warning at all (the claim requires a warning on every unknown-key
call), though the call is still a state-preserving no-op. -/
theorem setTimeRange_warning_counterexample :
    (setTimeRangeSync ⟨[], [], [], "3h", 36, true⟩ "5h").warned = false ∧
    TIME_RANGES "5h" = none ∧
    (setTimeRangeSync ⟨[], [], [], "3h", 36, true⟩ "5h").state
      = ⟨[], [], [], "3h", 36, true⟩ := by decide

/-- C8 witness: with no load in flight, the unknown key "5h" warns and
changes nothing. -/
theorem setTimeRange_unknown_noop_witness :
    setTimeRangeSync ⟨[], [], [], "3h", 36, false⟩ "5h"
      = ⟨⟨[], [], [], "3h", 36, false⟩, true, false⟩ :=
  setTimeRange_unknown_noop ⟨[], [], [], "3h", 36, false⟩ "5h" rfl

/-- C6 (amended): when readings of one entity collapse into the same
canonical bucket, the matrix cell holds the value of the earliest
colliding reading by original input position — the source reverses the
newest-first list before its overwriting pass, so the last write comes
from the first-positioned (chronologically latest) reading; the cell is
never an average. -/
theorem bucket_collision_first_wins :
    ∀ (pr : PlayerResp) (d : List Reading) (t : ℤ),
    pr.success = true → pr.data = some d →
    buildPdm [pr] pr.user_id t
      = (d.find? (fun r => decide (bucketOf r = t))).map Reading.value := by
  intro pr d t hs hd
  unfold buildPdm
  simp only [List.foldl_cons, List.foldl_nil, hs, hd, if_true]
  simp [playerMap_first_match]

/-- C6 counterexample: readings at positions 0 and 1 (values 5 and 7)
both collapse into bucket 0; the claim requires the later-positioned
value 7, but the cell holds the value 5 of the first-positioned
reading. -/
theorem bucket_collision_counterexample :
    bucketOf ⟨60000, 5⟩ = 0 ∧ bucketOf ⟨0, 7⟩ = 0 ∧
    buildPdm [⟨"A", true, some [⟨60000, 5⟩, ⟨0, 7⟩]⟩] "A" 0 = some 5 ∧
    buildPdm [⟨"A", true, some [⟨60000, 5⟩, ⟨0, 7⟩]⟩] "A" 0 ≠ some 7 := by
  decide

/-- C6 witness: on a two-reading collision the cell evaluates to the
first-positioned reading's value. -/
theorem bucket_collision_first_wins_witness :
    buildPdm [⟨"B", true, some [⟨30000, 9⟩, ⟨290000, 4⟩]⟩] "B" 0 = some 9 := by
  have h := bucket_collision_first_wins ⟨"B", true, some [⟨30000, 9⟩, ⟨290000, 4⟩]⟩
    [⟨30000, 9⟩, ⟨290000, 4⟩] 0 rfl rfl
  rw [h]
  decide

/-- C5 (amended): incremental `addDataPoint` preserves the budget bound
on the labels and on every per-player row (evicting the oldest entry),
but a successful bulk load installs the whole sorted union of distinct
aligned buckets as labels — its length is the number of distinct
buckets across all players, with no eviction against `maxPoints`. -/
theorem buffer_budget :
    (∀ (players : List String) (s : ChartState) (vals : String → Option ℚ)
      (now : ℤ), Bounded s → Bounded (addDataPoint players s vals now)) ∧
    (∀ (players : List String) (s : ChartState) (prs : List PlayerResp),
      (loadApply players s ⟨true, some prs⟩).labels = sortedTimestamps prs ∧
      (loadApply players s ⟨true, some prs⟩).labels.length
        = (collectTs prs).dedup.length) := by
  constructor
  · rintro players s vals now ⟨hlab, hds, hhi⟩
    refine ⟨pushShift_length _ _ _ hlab, ?_, ?_⟩
    · exact zipWith_rows_bound _
        (fun pid row h => by
          cases vals pid <;> simp only [] <;>
            first | exact h | exact pushShift_length _ _ _ h)
        players s.datasets hds
    · exact zipWith_rows_bound _
        (fun pid row h => by
          cases vals pid <;> simp only [] <;>
            first | exact h | exact pushShift_length _ _ _ h)
        players s.history hhi
  · intro players s prs
    refine ⟨rfl, ?_⟩
    simp [loadApply, sortedTimestamps, List.length_insertionSort]

/-- C5 counterexample: a bulk load answering the 3h preset (budget 36,
per-player `max_count` respected: 36 readings for one player, 1 for the
other) leaves the label sequence and both dataset rows at length 37,
exceeding the budget; bulk load does not evict at all. -/
theorem buffer_budget_counterexample :
    (loadApply ["A", "B"] initChartAB bigResp).labels.length = 37 ∧
    (loadApply ["A", "B"] initChartAB bigResp).datasets.map List.length
      = [37, 37] ∧
    initChartAB.maxPoints = 36 := by decide

/-- C5 witness: one incremental append on a fresh one-player chart
stays within the budget. -/
theorem buffer_budget_witness :
    Bounded (addDataPoint ["A"] ⟨[], [[]], [[]], "3h", 36, false⟩
      (fun _ => some 5) 0) :=
  buffer_budget.1 ["A"] ⟨[], [[]], [[]], "3h", 36, false⟩ (fun _ => some 5) 0
    (by unfold Bounded; exact ⟨by decide, by decide, by decide⟩)

/-- C4 (amended): the manager suppresses stale responses by never
letting two bulk fetches overlap at all — at most one fetch is in
flight after any event sequence, because `setTimeRange` and the
periodic refresh are complete no-ops (no fetch issued, no state
change) while a fetch is pending; the arriving response is therefore
always the unique latest one. There is no request token. -/
theorem fetch_mutual_exclusion :
    (∀ (players : List String) (evs : List MEv),
      (runM players (initM players) evs).inFlight ≤ 1) ∧
    (∀ (players : List String) (m : MState) (key : String),
      m.chart.isLoading = true →
      stepM players m (MEv.setRange key) = m ∧
      stepM players m MEv.refresh = m) := by
  constructor
  · intro players evs
    have hrun : ∀ (m : MState), Inv m → Inv (runM players m evs) := by
      induction evs with
      | nil => exact fun m h => h
      | cons e evs ih => exact fun m h => ih _ (stepM_inv players m e h)
    exact (hrun (initM players) (by simp [Inv, initM, initChartFor])).1
  · intro players m key hld
    constructor
    · simp [stepM, setTimeRangeSync, hld]
    · simp [stepM, loadStart, hld]

/-- C4 counterexample: with a refresh fetch in flight, a
`setTimeRange("6h")` call issues no second (overlapping, token-bearing)
fetch and changes nothing at all — the claim's premise of two
overlapping token-carrying fetches never occurs in the code. -/
theorem stale_fetch_counterexample :
    runM ["A"] (initM ["A"]) [MEv.refresh, MEv.setRange "6h"]
      = runM ["A"] (initM ["A"]) [MEv.refresh] ∧
    (runM ["A"] (initM ["A"]) [MEv.refresh]).inFlight = 1 := by decide

/-- C4 witness: a concrete loading state on which both entry points
are no-ops. -/
theorem fetch_mutual_exclusion_witness :
    stepM [] ⟨⟨[], [], [], "3h", 36, true⟩, 1⟩ (MEv.setRange "6h")
        = ⟨⟨[], [], [], "3h", 36, true⟩, 1⟩ ∧
    stepM [] ⟨⟨[], [], [], "3h", 36, true⟩, 1⟩ MEv.refresh
        = ⟨⟨[], [], [], "3h", 36, true⟩, 1⟩ :=
  fetch_mutual_exclusion.2 [] ⟨⟨[], [], [], "3h", 36, true⟩, 1⟩ "6h" rfl

end GlucosePK
